import Mathlib

/-!
Verification of the `utils.py` module of Lavalink-Monitor: a shallow
embedding of its helper functions (health classification, overall health
aggregation, byte/uptime/string formatting, percentage and load helpers)
together with theorems settling the specification claims.

Modelling conventions:
* Python numbers are embedded as rationals (`ℚ`); integer byte counts as `ℕ`.
* The externally supplied configuration tables `EMOJIS` and
  `HEALTH_THRESHOLDS` (imported from `config`, not part of the visible
  source) are passed as explicit parameters: `Emojis` is a record of the
  four required display strings, and a threshold table maps a metric-type
  string to an optional entry whose `good`/`moderate` keys may each be
  absent, mirroring the nested `dict.get` defaults in the source.
* Runtime errors (`ZeroDivisionError` from the unguarded RAM ratio,
  `KeyError` from indexing a dict that lacks a key) are embedded with
  `Except PyErr`.
* Python dict truthiness (`if system_data:`) is `none`/empty-list falsy,
  so the optional system record is an association list under `Option`.
-/

/-- The `EMOJIS` table from `config`: the four required display strings. -/
structure Emojis where
  good : String
  moderate : String
  critical : String
  offline : String

/-- One entry of `HEALTH_THRESHOLDS`: a dict whose `good` and `moderate`
keys may each be missing (the source reads them with per-key defaults). -/
structure ThresholdEntry where
  goodKey : Option ℚ
  moderateKey : Option ℚ

/-- The `HEALTH_THRESHOLDS` table: metric-type string to optional entry
(`HEALTH_THRESHOLDS.get(metric_type, {})` in the source). -/
def HealthThresholds : Type := String → Option ThresholdEntry

/-- The threshold pair `get_health_emoji` resolves for a metric type:
`thresholds.get('good', 50)` and `thresholds.get('moderate', 80)` applied
to `HEALTH_THRESHOLDS.get(metric_type, {})`. -/
def resolveThresholds (th : HealthThresholds) (metric_type : String) : ℚ × ℚ :=
  let t := (th metric_type).getD ⟨none, none⟩
  (t.goodKey.getD 50, t.moderateKey.getD 80)

/-- `get_health_emoji(value, metric_type)` from `utils.py` lines 4-27.
`value = none` models Python `None`. -/
def get_health_emoji (e : Emojis) (th : HealthThresholds)
    (value : Option ℚ) (metric_type : String) : String :=
  match value with
  | none => e.offline
  | some v =>
    let gt := (resolveThresholds th metric_type).1
    let mt := (resolveThresholds th metric_type).2
    if v < gt then e.good
    else if v < mt then e.moderate
    else e.critical

/-- `calculate_percentage(value, total)` from `utils.py` lines 206-219. -/
def calculate_percentage (value total : ℚ) : ℚ :=
  if total = 0 then 0
  else (value / total) * 100

/-- `get_load_indicator(load_avg, cpu_count)` from `utils.py` lines
221-239.  The source is truncated right after the `elif` that follows the
good branch, so the remaining branches are abstracted by the parameter
`rest`, applied to the computed load percentage. -/
def get_load_indicator (e : Emojis) (rest : ℚ → String)
    (load_avg cpu_count : ℚ) : String :=
  if cpu_count = 0 then e.offline
  else
    let load_percentage := (load_avg / cpu_count) * 100
    if load_percentage < 70 then e.good
    else rest load_percentage

/-- Python slice `s[:k]` for an arbitrary integer upper bound `k`:
nonnegative `k` keeps the first `k` characters, negative `k` drops the
last `-k`.  Python strings are embedded as their character sequences. -/
def pySliceTo (s : List Char) (k : ℤ) : List Char :=
  if 0 ≤ k then s.take k.toNat
  else s.take ((s.length : ℤ) + k).toNat

/-- `truncate_string(text, max_length=100)` from `utils.py` lines 174-187.
`max_length` is an arbitrary Python integer, so the slice bound
`max_length - 3` goes through Python slice semantics. -/
def truncate_string (text : List Char) (max_length : ℤ := 100) : List Char :=
  if (text.length : ℤ) ≤ max_length then text
  else pySliceTo text (max_length - 3) ++ ['.', '.', '.']

/-- Round-half-to-even on rationals, matching how Python string-formats
the halfway cases of a float. -/
def roundHalfEven (q : ℚ) : ℤ :=
  if q - ⌊q⌋ < 1/2 then ⌊q⌋
  else if q - ⌊q⌋ > 1/2 then ⌊q⌋ + 1
  else if ⌊q⌋ % 2 = 0 then ⌊q⌋ else ⌊q⌋ + 1

/-- Python `f"{x:.1f}"` for a nonnegative value: the value rounded to one
decimal digit, printed with exactly one digit after the point. -/
def fmtOne (q : ℚ) : String :=
  let n := (roundHalfEven (q * 10)).toNat
  toString (n / 10) ++ "." ++ toString (n % 10)

/-- `format_bytes(bytes_value)` from `utils.py` lines 136-153, for an
integer byte count. -/
def format_bytes (bytes_value : ℕ) : String :=
  if bytes_value < 1024 then toString bytes_value ++ "B"
  else if bytes_value < 1024 ^ 2 then fmtOne ((bytes_value : ℚ) / 1024) ++ "KB"
  else if bytes_value < 1024 ^ 3 then fmtOne ((bytes_value : ℚ) / 1024 ^ 2) ++ "MB"
  else fmtOne ((bytes_value : ℚ) / 1024 ^ 3) ++ "GB"

/-- The `memory` sub-dict of a node's `stats`. -/
structure NodeMemory where
  used : ℚ
  allocated : ℚ

/-- The `stats` sub-dict of a node record. -/
structure NodeStats where
  cpu : ℚ
  memory : NodeMemory

/-- A Lavalink node record: `node.get('online', False)` is the `online`
field, `node['stats']` the `stats` field, and `node.get('ping', 999)` is
`ping` with `none` for an absent key. -/
structure Node where
  online : Bool
  stats : NodeStats
  ping : Option ℚ

/-- Python runtime errors that the embedded code can raise. -/
inductive PyErr where
  | zeroDivisionErr : PyErr
  | keyErr : PyErr
deriving DecidableEq

/-- A Python dict with string keys and numeric values, as an association
list; used for the system record so that dict truthiness and `KeyError`
are representable. -/
abbrev PyDict : Type := List (String × ℚ)

/-- Python `d[k]` on a dict: the first binding of `k`, or `KeyError`. -/
def dictGet (d : PyDict) (k : String) : Except PyErr ℚ :=
  match List.find? (fun p => p.1 == k) d with
  | some p => .ok p.2
  | none => .error .keyErr

/-- The counter update the source repeats after each check: increment
`critical_count` if the emoji equals `EMOJIS['critical']`, else increment
`moderate_count` if it equals `EMOJIS['moderate']`, and always increment
`total_metrics`.  The triple is `(critical_count, moderate_count,
total_metrics)`. -/
def bump (e : Emojis) (emoji : String) : ℕ × ℕ × ℕ → ℕ × ℕ × ℕ
  | (c, m, t) =>
    if emoji = e.critical then (c + 1, m, t + 1)
    else if emoji = e.moderate then (c, m + 1, t + 1)
    else (c, m, t + 1)

/-- The body of the node loop in `get_overall_health` (lines 45-72): an
online node contributes the CPU, RAM and Ping checks; the RAM percentage
raises `ZeroDivisionError` when `allocated` is `0`; an offline node is
skipped. -/
def nodeStep (e : Emojis) (th : HealthThresholds)
    (acc : ℕ × ℕ × ℕ) (node : Node) : Except PyErr (ℕ × ℕ × ℕ) :=
  if node.online then
    let acc1 := bump e (get_health_emoji e th (some (node.stats.cpu * 100)) "cpu") acc
    if node.stats.memory.allocated = 0 then .error .zeroDivisionErr
    else
      let ram_percent := node.stats.memory.used / node.stats.memory.allocated * 100
      let acc2 := bump e (get_health_emoji e th (some ram_percent) "ram") acc1
      let acc3 := bump e (get_health_emoji e th (some (node.ping.getD 999)) "ping") acc2
      .ok acc3
  else .ok acc

/-- The system block of `get_overall_health` (lines 74-95): guarded by
Python truthiness of `system_data` (`None` and the empty dict are falsy),
it reads `cpu_percent`, `memory_percent` and `disk_percent` and performs
one check each against the `cpu`, `ram` and `disk` thresholds. -/
def systemStep (e : Emojis) (th : HealthThresholds)
    (system_data : Option PyDict) (acc : ℕ × ℕ × ℕ) : Except PyErr (ℕ × ℕ × ℕ) :=
  match system_data with
  | none => .ok acc
  | some d =>
    if d = ([] : PyDict) then .ok acc
    else do
      let cp ← dictGet d "cpu_percent"
      let acc1 := bump e (get_health_emoji e th (some cp) "cpu") acc
      let mp ← dictGet d "memory_percent"
      let acc2 := bump e (get_health_emoji e th (some mp) "ram") acc1
      let dp ← dictGet d "disk_percent"
      .ok (bump e (get_health_emoji e th (some dp) "disk") acc2)

/-- The counting phase of `get_overall_health` (lines 40-95): counters
start at zero, every node is processed in order, then the system block
runs. -/
def countsOf (e : Emojis) (th : HealthThresholds)
    (lavalink_data : List Node) (system_data : Option PyDict) :
    Except PyErr (ℕ × ℕ × ℕ) := do
  let acc ← List.foldlM (nodeStep e th) (0, 0, 0) lavalink_data
  systemStep e th system_data acc

/-- The decision phase of `get_overall_health` (lines 97-109): `critical`
on no data, otherwise the ratio cascade with first match winning. -/
def overallDecision : ℕ × ℕ × ℕ → String
  | (c, m, t) =>
    if t = 0 then "critical"
    else
      let critRat : ℚ := (c : ℚ) / (t : ℚ)
      let modRat : ℚ := (m : ℚ) / (t : ℚ)
      if critRat > 0.3 then "critical"
      else if critRat > 0.1 ∨ modRat > 0.5 then "moderate"
      else "good"

/-- `get_overall_health(lavalink_data, system_data)` from `utils.py`
lines 29-109: the counting phase followed by the decision phase. -/
def get_overall_health (e : Emojis) (th : HealthThresholds)
    (lavalink_data : List Node) (system_data : Option PyDict) :
    Except PyErr String :=
  (countsOf e th lavalink_data system_data).map overallDecision

/-- Python truthiness of the `system_data` argument: `None` and the empty
dict are falsy, a nonempty dict is truthy. -/
def sysTruthy : Option PyDict → Bool
  | none => false
  | some [] => false
  | some (_ :: _) => true

/-- Specification-side severity of one check (spec section 4.1): the
three-way classification by the resolved threshold pair, independent of
the emoji strings. -/
inductive Status where
  | good : Status
  | moderate : Status
  | critical : Status
deriving DecidableEq

/-- Specification-side classifier, following the spec text of section
4.1: `good` below the good threshold, `moderate` below the moderate
threshold, `critical` otherwise. -/
def specClassify (th : HealthThresholds) (v : ℚ) (metric_kind : String) : Status :=
  if v < (resolveThresholds th metric_kind).1 then .good
  else if v < (resolveThresholds th metric_kind).2 then .moderate
  else .critical

/-- The emoji string displayed for a classified (non-offline) status. -/
def statusEmoji (e : Emojis) : Status → String
  | .good => e.good
  | .moderate => e.moderate
  | .critical => e.critical

/-- The counter contribution of one check with the given classification:
`(critical increment, moderate increment, total increment)`. -/
def unitTriple : Status → ℕ × ℕ × ℕ
  | .good => (0, 0, 1)
  | .moderate => (0, 1, 1)
  | .critical => (1, 0, 1)

/-- Componentwise addition of counter triples. -/
def addT : ℕ × ℕ × ℕ → ℕ × ℕ × ℕ → ℕ × ℕ × ℕ
  | (a, b, c), (x, y, z) => (a + x, b + y, c + z)

/-- Specification-side counting, following the spec text of section 4.2:
classify every check in the list and sum the counter contributions. -/
def specTally (th : HealthThresholds) (checks : List (ℚ × String)) : ℕ × ℕ × ℕ :=
  checks.foldr (fun ck acc => addT (unitTriple (specClassify th ck.1 ck.2)) acc) (0, 0, 0)

/-- Specification-side checks of one online node, following the spec text
of section 4.2: CPU at `stats.cpu * 100`, RAM at
`used / allocated * 100`, Ping at `ping` (default `999`). -/
def specNodeChecks (node : Node) : List (ℚ × String) :=
  [(node.stats.cpu * 100, "cpu"),
   (node.stats.memory.used / node.stats.memory.allocated * 100, "ram"),
   (node.ping.getD 999, "ping")]

/-- Specification-side checks of a truthy system record, following the
spec text of section 4.2: its three percent fields against `cpu`, `ram`
and `disk`. -/
def specSystemChecks (cp mp dp : ℚ) : List (ℚ × String) :=
  [(cp, "cpu"), (mp, "ram"), (dp, "disk")]

/-- A concrete emoji table with four distinct glyph strings, used to
instantiate the theorems. -/
def eDemo : Emojis := ⟨"G", "M", "C", "O"⟩

/-- A concrete threshold table with no entries, so every metric type
resolves to the default pair `(50, 80)`. -/
def thDemo : HealthThresholds := fun _ => none

/-- A concrete system dict holding the three expected keys. -/
def dDemo : PyDict :=
  [("cpu_percent", 10), ("memory_percent", 20), ("disk_percent", 30)]

/-- An online node whose memory dict reports `allocated = 0`: evaluating
its RAM percentage divides by zero. -/
def badNode : Node := ⟨true, ⟨1, ⟨100, 0⟩⟩, some 50⟩

lemma truncate_string_of_le (s : List Char) (ml : ℤ) (h : (s.length : ℤ) ≤ ml) :
    truncate_string s ml = s := by
  unfold truncate_string
  rw [if_pos h]

lemma truncate_string_length_eq (text : List Char) (ml : ℤ)
    (h3 : 3 ≤ ml) (hlt : ml < (text.length : ℤ)) :
    ((truncate_string text ml).length : ℤ) = ml := by
  unfold truncate_string pySliceTo
  rw [if_neg (by omega), if_pos (by omega)]
  simp only [List.length_append, List.length_take, List.length_cons,
    List.length_nil]
  omega

/-- C6: `truncate_string` returns `text` unchanged when
`length(text) <= max_length`; otherwise (for `max_length >= 3`, below
which "the first `max_length - 3` characters" is not meaningful and the
spec leaves the behavior undefined) it returns the first `max_length - 3`
characters followed by the three-character ellipsis, and the result then
has length exactly `max_length`. -/
theorem truncate_string_spec (text : List Char) (ml : ℤ) :
    ((text.length : ℤ) ≤ ml → truncate_string text ml = text) ∧
    (3 ≤ ml → ml < (text.length : ℤ) →
      truncate_string text ml = text.take (ml - 3).toNat ++ ['.', '.', '.']) ∧
    (3 ≤ ml → ml < (text.length : ℤ) →
      ((truncate_string text ml).length : ℤ) = ml) := by
  refine ⟨truncate_string_of_le text ml, ?_, truncate_string_length_eq text ml⟩
  intro h3 hlt
  unfold truncate_string pySliceTo
  rw [if_neg (by omega), if_pos (by omega)]

/-- Witness for C6 at `text = "xxxxxxxxxx"`, `max_length = 5`: ten
characters truncate to two plus the ellipsis. -/
theorem truncate_string_spec_witness :
    truncate_string (List.replicate 10 'x') 5 =
      (List.replicate 10 'x').take ((5 : ℤ) - 3).toNat ++ ['.', '.', '.'] :=
  (truncate_string_spec (List.replicate 10 'x') 5).2.1 (by norm_num) (by simp)

/-- C10: at any fixed limit `max_length >= 3`, `truncate_string` is
idempotent: a second application at the same limit changes nothing,
because the first result never exceeds `max_length` characters. -/
theorem truncate_string_idem (text : List Char) (ml : ℤ) (h3 : 3 ≤ ml) :
    truncate_string (truncate_string text ml) ml = truncate_string text ml := by
  rcases le_or_lt (text.length : ℤ) ml with h | h
  · have h1 := truncate_string_of_le text ml h
    simp only [h1]
  · exact truncate_string_of_le _ ml
      (le_of_eq (truncate_string_length_eq text ml h3 h))

/-- Witness for C10 at `text = "hello"`, `max_length = 3`. -/
theorem truncate_string_idem_witness :
    truncate_string (truncate_string ['h', 'e', 'l', 'l', 'o'] 3) 3 =
      truncate_string ['h', 'e', 'l', 'l', 'o'] 3 :=
  truncate_string_idem ['h', 'e', 'l', 'l', 'o'] 3 (by norm_num)

/-- C8: `calculate_percentage` returns `0.0` when `total` is `0` (the
guard makes it total, never raising) and `(value / total) * 100`
otherwise; in particular `calculate_percentage(50, 0) = 0.0` and
`calculate_percentage(25, 100) = 25.0`. -/
theorem calculate_percentage_spec (value total : ℚ) :
    (total = 0 → calculate_percentage value total = 0) ∧
    (total ≠ 0 → calculate_percentage value total = value / total * 100) ∧
    calculate_percentage 50 0 = 0 ∧
    calculate_percentage 25 100 = 25 := by
  refine ⟨?_, ?_, ?_, ?_⟩
  · intro h; unfold calculate_percentage; rw [if_pos h]
  · intro h; unfold calculate_percentage; rw [if_neg h]
  · norm_num [calculate_percentage]
  · norm_num [calculate_percentage]

/-- Witness for C8 at `value = 25`, `total = 100`. -/
theorem calculate_percentage_spec_witness :
    calculate_percentage 25 100 = 25 / 100 * 100 :=
  (calculate_percentage_spec 25 100).2.1 (by norm_num)

/-- C7: `get_load_indicator` returns the offline emoji whenever
`cpu_count` is `0`, so the division is guarded; and for nonzero
`cpu_count`, a load percentage `load_avg / cpu_count * 100` below `70`
yields the good emoji (for any completion of the truncated tail of the
source). -/
theorem get_load_indicator_spec (e : Emojis) (rest : ℚ → String)
    (load_avg cpu_count : ℚ) :
    (cpu_count = 0 → get_load_indicator e rest load_avg cpu_count = e.offline) ∧
    (cpu_count ≠ 0 → load_avg / cpu_count * 100 < 70 →
      get_load_indicator e rest load_avg cpu_count = e.good) := by
  constructor
  · intro h; unfold get_load_indicator; rw [if_pos h]
  · intro h h2; unfold get_load_indicator; rw [if_neg h, if_pos h2]

/-- Witness for C7 at `load_avg = 1`, `cpu_count = 2`: the load
percentage is `50 < 70`, so the good emoji comes back. -/
theorem get_load_indicator_spec_witness :
    get_load_indicator eDemo (fun _ => "") 1 2 = eDemo.good :=
  (get_load_indicator_spec eDemo (fun _ => "") 1 2).2 (by norm_num) (by norm_num)

/-- C3: `get_health_emoji` returns the offline emoji for an absent value;
otherwise, with the threshold pair resolved for the metric type (the pair
is `(50, 80)` when the type is unknown), it returns the good emoji below
the good threshold, the moderate emoji from the good threshold up to the
moderate threshold, and — whenever the resolved pair is ordered — the
critical emoji from the moderate threshold on, for every metric type. -/
theorem get_health_emoji_spec (e : Emojis) (th : HealthThresholds)
    (mtype : String) (v : ℚ) :
    get_health_emoji e th none mtype = e.offline ∧
    (th mtype = none → resolveThresholds th mtype = (50, 80)) ∧
    (v < (resolveThresholds th mtype).1 →
      get_health_emoji e th (some v) mtype = e.good) ∧
    ((resolveThresholds th mtype).1 ≤ v → v < (resolveThresholds th mtype).2 →
      get_health_emoji e th (some v) mtype = e.moderate) ∧
    ((resolveThresholds th mtype).1 ≤ (resolveThresholds th mtype).2 →
      (resolveThresholds th mtype).2 ≤ v →
      get_health_emoji e th (some v) mtype = e.critical) := by
  refine ⟨rfl, ?_, ?_, ?_, ?_⟩
  · intro h; unfold resolveThresholds; rw [h]; rfl
  · intro h; simp only [get_health_emoji]; rw [if_pos h]
  · intro h1 h2; simp only [get_health_emoji]
    rw [if_neg (not_lt.mpr h1), if_pos h2]
  · intro hgm hv; simp only [get_health_emoji]
    rw [if_neg (not_lt.mpr (le_trans hgm hv)), if_neg (not_lt.mpr hv)]

/-- Witness for C3 at value `90` against the default thresholds
`(50, 80)`: the critical emoji. -/
theorem get_health_emoji_spec_witness :
    get_health_emoji eDemo thDemo (some 90) "cpu" = eDemo.critical :=
  (get_health_emoji_spec eDemo thDemo "cpu" 90).2.2.2.2
    (by norm_num [resolveThresholds, thDemo])
    (by norm_num [resolveThresholds, thDemo])

lemma toString_digit_length (k : ℕ) (h : k < 10) : (toString k).length = 1 := by
  interval_cases k <;> rfl

lemma fmtOne_shape (q : ℚ) :
    ∃ a d : String, fmtOne q = a ++ "." ++ d ∧ d.length = 1 := by
  refine ⟨toString ((roundHalfEven (q * 10)).toNat / 10),
    toString ((roundHalfEven (q * 10)).toNat % 10), rfl, ?_⟩
  exact toString_digit_length _ (Nat.mod_lt _ (by norm_num))

/-- C5: `format_bytes` picks its unit at the thresholds `1024`, `1024^2`
and `1024^3`; the `B` branch prints the raw integer with no decimal
point, while the `KB`, `MB` and `GB` branches print the value divided by
the corresponding power of `1024` formatted with exactly one digit after
the decimal point; and the three concrete examples of the spec hold. -/
theorem format_bytes_spec (n : ℕ) :
    (n < 1024 → format_bytes n = toString n ++ "B") ∧
    (1024 ≤ n → n < 1024 ^ 2 → format_bytes n = fmtOne ((n : ℚ) / 1024) ++ "KB") ∧
    (1024 ^ 2 ≤ n → n < 1024 ^ 3 →
      format_bytes n = fmtOne ((n : ℚ) / 1024 ^ 2) ++ "MB") ∧
    (1024 ^ 3 ≤ n → format_bytes n = fmtOne ((n : ℚ) / 1024 ^ 3) ++ "GB") ∧
    (∀ q : ℚ, ∃ a d : String, fmtOne q = a ++ "." ++ d ∧ d.length = 1) ∧
    format_bytes 512 = "512B" ∧
    format_bytes 2048 = "2.0KB" ∧
    format_bytes 1048576 = "1.0MB" := by
  refine ⟨?_, ?_, ?_, ?_, fmtOne_shape, ?_, ?_, ?_⟩
  · intro h; unfold format_bytes; rw [if_pos h]
  · intro h1 h2; unfold format_bytes; rw [if_neg (by omega), if_pos h2]
  · intro h1 h2; unfold format_bytes
    rw [if_neg (by omega), if_neg (by omega), if_pos h2]
  · intro h1; unfold format_bytes
    rw [if_neg (by omega), if_neg (by omega), if_neg (by omega)]
  · simp only [format_bytes]; norm_num; decide
  · have h : roundHalfEven (20 : ℚ) = 20 := by unfold roundHalfEven; norm_num
    simp only [format_bytes, fmtOne]
    norm_num
    rw [h]; decide
  · have h : roundHalfEven (10 : ℚ) = 10 := by unfold roundHalfEven; norm_num
    simp only [format_bytes, fmtOne]
    norm_num
    rw [h]; decide

/-- Witness for C5 at `n = 2048`: the `KB` branch applies. -/
theorem format_bytes_spec_witness :
    format_bytes 2048 = fmtOne ((2048 : ℚ) / 1024) ++ "KB" :=
  (format_bytes_spec 2048).2.1 (by norm_num) (by norm_num)

/-- C1: given the counters of the counting phase, `get_overall_health`
returns `critical` whenever `total_metrics` is `0`; otherwise the ratio
cascade decides with the first matching rule: `critical` above a `0.3`
critical ratio, else `moderate` above a `0.1` critical ratio or a `0.5`
moderate ratio, else `good`; in particular an empty node list with no
system record yields `critical`. -/
theorem get_overall_health_decision (e : Emojis) (th : HealthThresholds)
    (nodes : List Node) (sys : Option PyDict) (c m t : ℕ)
    (h : countsOf e th nodes sys = .ok (c, m, t)) :
    (t = 0 → get_overall_health e th nodes sys = .ok "critical") ∧
    (t ≠ 0 → (c : ℚ) / (t : ℚ) > 0.3 →
      get_overall_health e th nodes sys = .ok "critical") ∧
    (t ≠ 0 → ¬((c : ℚ) / (t : ℚ) > 0.3) →
      ((c : ℚ) / (t : ℚ) > 0.1 ∨ (m : ℚ) / (t : ℚ) > 0.5) →
      get_overall_health e th nodes sys = .ok "moderate") ∧
    (t ≠ 0 → ¬((c : ℚ) / (t : ℚ) > 0.3) →
      ¬((c : ℚ) / (t : ℚ) > 0.1 ∨ (m : ℚ) / (t : ℚ) > 0.5) →
      get_overall_health e th nodes sys = .ok "good") ∧
    get_overall_health e th [] none = .ok "critical" := by
  have key : get_overall_health e th nodes sys = .ok (overallDecision (c, m, t)) := by
    unfold get_overall_health
    rw [h]
    rfl
  refine ⟨?_, ?_, ?_, ?_, rfl⟩
  · intro h0
    rw [key]; simp only [overallDecision]; rw [if_pos h0]
  · intro h0 h1
    rw [key]; simp only [overallDecision]; rw [if_neg h0, if_pos h1]
  · intro h0 h1 h2
    rw [key]; simp only [overallDecision]; rw [if_neg h0, if_neg h1, if_pos h2]
  · intro h0 h1 h2
    rw [key]; simp only [overallDecision]; rw [if_neg h0, if_neg h1, if_neg h2]

/-- Witness for C1 at the empty input: the counters are `(0, 0, 0)`, so
`total_metrics = 0` forces `critical`. -/
theorem get_overall_health_decision_witness :
    get_overall_health eDemo thDemo [] none = .ok "critical" :=
  (get_overall_health_decision eDemo thDemo [] none 0 0 0 rfl).1 rfl

lemma addT_zero_right (a : ℕ × ℕ × ℕ) : addT a (0, 0, 0) = a := by
  obtain ⟨x, y, z⟩ := a
  simp [addT]

lemma addT_zero_left (a : ℕ × ℕ × ℕ) : addT (0, 0, 0) a = a := by
  obtain ⟨x, y, z⟩ := a
  simp [addT]

lemma addT_assoc (a b c : ℕ × ℕ × ℕ) : addT (addT a b) c = addT a (addT b c) := by
  obtain ⟨x, y, z⟩ := a
  obtain ⟨u, v, w⟩ := b
  obtain ⟨p, q, r⟩ := c
  simp [addT, Nat.add_assoc]

lemma specTally_nil (th : HealthThresholds) : specTally th [] = (0, 0, 0) := rfl

lemma specTally_cons (th : HealthThresholds) (ck : ℚ × String)
    (l : List (ℚ × String)) :
    specTally th (ck :: l) =
      addT (unitTriple (specClassify th ck.1 ck.2)) (specTally th l) := rfl

lemma specTally_append (th : HealthThresholds) (l1 l2 : List (ℚ × String)) :
    specTally th (l1 ++ l2) = addT (specTally th l1) (specTally th l2) := by
  induction l1 with
  | nil => rw [List.nil_append, specTally_nil, addT_zero_left]
  | cons x l ih =>
    rw [List.cons_append, specTally_cons, specTally_cons, ih, addT_assoc]

lemma emoji_eq_statusEmoji (e : Emojis) (th : HealthThresholds)
    (v : ℚ) (mtype : String) :
    get_health_emoji e th (some v) mtype = statusEmoji e (specClassify th v mtype) := by
  simp only [get_health_emoji, specClassify, statusEmoji]
  split_ifs <;> rfl

lemma bump_statusEmoji (e : Emojis) (hgc : e.good ≠ e.critical)
    (hmc : e.moderate ≠ e.critical) (hgm : e.good ≠ e.moderate)
    (s : Status) (acc : ℕ × ℕ × ℕ) :
    bump e (statusEmoji e s) acc = addT acc (unitTriple s) := by
  obtain ⟨c, m, t⟩ := acc
  cases s <;> simp [bump, statusEmoji, addT, unitTriple, hgc, hmc, hgm]

lemma nodeStep_eq (e : Emojis) (th : HealthThresholds)
    (hgc : e.good ≠ e.critical) (hmc : e.moderate ≠ e.critical)
    (hgm : e.good ≠ e.moderate) (acc : ℕ × ℕ × ℕ) (n : Node)
    (hne : n.online = true → n.stats.memory.allocated ≠ 0) :
    nodeStep e th acc n =
      .ok (addT acc (specTally th (if n.online then specNodeChecks n else []))) := by
  by_cases ho : n.online
  · simp only [nodeStep, ho, if_true]
    rw [if_neg (hne ho)]
    rw [emoji_eq_statusEmoji, emoji_eq_statusEmoji, emoji_eq_statusEmoji]
    rw [bump_statusEmoji e hgc hmc hgm, bump_statusEmoji e hgc hmc hgm,
      bump_statusEmoji e hgc hmc hgm]
    simp only [specNodeChecks, specTally_cons, specTally_nil, addT_zero_right,
      addT_assoc]
  · simp only [nodeStep, ho, if_false, Bool.false_eq_true]
    rw [specTally_nil, addT_zero_right]

lemma foldlM_nodeStep_eq (e : Emojis) (th : HealthThresholds)
    (hgc : e.good ≠ e.critical) (hmc : e.moderate ≠ e.critical)
    (hgm : e.good ≠ e.moderate) :
    ∀ (nodes : List Node) (acc : ℕ × ℕ × ℕ),
    (∀ n ∈ nodes, n.online = true → n.stats.memory.allocated ≠ 0) →
    List.foldlM (nodeStep e th) acc nodes =
      .ok (addT acc (specTally th
        ((nodes.filter (fun n => n.online)).flatMap specNodeChecks))) := by
  intro nodes
  induction nodes with
  | nil =>
    intro acc h
    rw [List.foldlM_nil, List.filter_nil, List.flatMap_nil, specTally_nil,
      addT_zero_right]
    rfl
  | cons n ns ih =>
    intro acc h
    rw [List.foldlM_cons,
      nodeStep_eq e th hgc hmc hgm acc n (h n (List.mem_cons_self n ns))]
    have hbind : ∀ (x : ℕ × ℕ × ℕ) (f : ℕ × ℕ × ℕ → Except PyErr (ℕ × ℕ × ℕ)),
        (Except.ok x : Except PyErr (ℕ × ℕ × ℕ)) >>= f = f x := fun _ _ => rfl
    rw [hbind, ih _ (fun n' hn' => h n' (List.mem_cons_of_mem n hn'))]
    by_cases ho : n.online
    · rw [if_pos ho, List.filter_cons, if_pos (by simp [ho]), List.flatMap_cons,
        specTally_append, addT_assoc]
    · rw [if_neg ho, List.filter_cons, if_neg (by simp [ho]), specTally_nil,
        addT_zero_right]

lemma systemStep_eq (e : Emojis) (th : HealthThresholds)
    (hgc : e.good ≠ e.critical) (hmc : e.moderate ≠ e.critical)
    (hgm : e.good ≠ e.moderate) (d : PyDict) (cp mp dp : ℚ) (acc : ℕ × ℕ × ℕ)
    (hd : d ≠ []) (h1 : dictGet d "cpu_percent" = .ok cp)
    (h2 : dictGet d "memory_percent" = .ok mp)
    (h3 : dictGet d "disk_percent" = .ok dp) :
    systemStep e th (some d) acc =
      .ok (addT acc (specTally th (specSystemChecks cp mp dp))) := by
  have hbind : ∀ (x : ℚ) (f : ℚ → Except PyErr (ℕ × ℕ × ℕ)),
      (Except.ok x : Except PyErr ℚ) >>= f = f x := fun _ _ => rfl
  simp only [systemStep]
  rw [if_neg hd, h1, hbind, h2, hbind, h3, hbind]
  rw [emoji_eq_statusEmoji, emoji_eq_statusEmoji, emoji_eq_statusEmoji]
  rw [bump_statusEmoji e hgc hmc hgm, bump_statusEmoji e hgc hmc hgm,
    bump_statusEmoji e hgc hmc hgm]
  simp only [specSystemChecks, specTally_cons, specTally_nil, addT_zero_right,
    addT_assoc]

lemma addT_total (a b : ℕ × ℕ × ℕ) : (addT a b).2.2 = a.2.2 + b.2.2 := by
  obtain ⟨x, y, z⟩ := a
  obtain ⟨u, v, w⟩ := b
  rfl

lemma unitTriple_total (s : Status) : (unitTriple s).2.2 = 1 := by
  cases s <;> rfl

lemma specTally_total (th : HealthThresholds) :
    ∀ checks : List (ℚ × String), (specTally th checks).2.2 = checks.length := by
  intro checks
  induction checks with
  | nil => rfl
  | cons ck l ih =>
    rw [specTally_cons, addT_total, unitTriple_total, ih, List.length_cons]
    omega

lemma flatMap_specNodeChecks_length :
    ∀ l : List Node, (l.flatMap specNodeChecks).length = 3 * l.length := by
  intro l
  induction l with
  | nil => rfl
  | cons n ns ih =>
    rw [List.flatMap_cons, List.length_append, ih, List.length_cons]
    have : (specNodeChecks n).length = 3 := rfl
    omega

/-- C2: with pairwise distinct emoji glyphs, the counting phase of
`get_overall_health` performs exactly the checks of the specification:
three per online node (CPU from `stats.cpu * 100`, RAM from
`used / allocated * 100`, Ping from `ping` with default `999`), none for
an offline node, and three more from a truthy system record's
`cpu_percent`, `memory_percent` and `disk_percent`; each check adds one
to `total_metrics`, and the critical/moderate counters follow the
per-check classification. -/
theorem get_overall_health_counting (e : Emojis) (th : HealthThresholds)
    (nodes : List Node) (d : PyDict) (cp mp dp : ℚ)
    (hgc : e.good ≠ e.critical) (hmc : e.moderate ≠ e.critical)
    (hgm : e.good ≠ e.moderate)
    (halloc : ∀ n ∈ nodes, n.online = true → n.stats.memory.allocated ≠ 0)
    (hd : d ≠ []) (h1 : dictGet d "cpu_percent" = .ok cp)
    (h2 : dictGet d "memory_percent" = .ok mp)
    (h3 : dictGet d "disk_percent" = .ok dp) :
    countsOf e th nodes (some d) =
      .ok (specTally th (((nodes.filter (fun n => n.online)).flatMap specNodeChecks)
        ++ specSystemChecks cp mp dp)) ∧
    countsOf e th nodes none =
      .ok (specTally th ((nodes.filter (fun n => n.online)).flatMap specNodeChecks)) ∧
    (∀ checks : List (ℚ × String), (specTally th checks).2.2 = checks.length) ∧
    ((nodes.filter (fun n => n.online)).flatMap specNodeChecks).length
      = 3 * (nodes.filter (fun n => n.online)).length ∧
    (specSystemChecks cp mp dp).length = 3 := by
  have hfold := foldlM_nodeStep_eq e th hgc hmc hgm nodes (0, 0, 0) halloc
  have hbind : ∀ (x : ℕ × ℕ × ℕ) (f : ℕ × ℕ × ℕ → Except PyErr (ℕ × ℕ × ℕ)),
      (Except.ok x : Except PyErr (ℕ × ℕ × ℕ)) >>= f = f x := fun _ _ => rfl
  refine ⟨?_, ?_, specTally_total th,
    flatMap_specNodeChecks_length (nodes.filter (fun n => n.online)), rfl⟩
  · unfold countsOf
    rw [hfold, hbind, systemStep_eq e th hgc hmc hgm d cp mp dp _ hd h1 h2 h3,
      addT_zero_left, specTally_append]
  · unfold countsOf
    rw [hfold, hbind]
    simp only [systemStep]
    rw [addT_zero_left]

/-- Witness for C2 at an empty node list and the demo system dict. -/
theorem get_overall_health_counting_witness :
    countsOf eDemo thDemo [] (some dDemo) =
      .ok (specTally thDemo ((List.filter (fun n => n.online)
        ([] : List Node)).flatMap specNodeChecks ++ specSystemChecks 10 20 30)) :=
  (get_overall_health_counting eDemo thDemo [] dDemo 10 20 30 (by decide)
    (by decide) (by decide) (fun n hn => absurd hn (List.not_mem_nil n))
    (by decide) rfl rfl rfl).1

lemma nodeStep_ok (e : Emojis) (th : HealthThresholds) (acc : ℕ × ℕ × ℕ)
    (n : Node) (hne : n.online = true → n.stats.memory.allocated ≠ 0) :
    ∃ acc', nodeStep e th acc n = .ok acc' := by
  by_cases ho : n.online
  · refine ⟨bump e (get_health_emoji e th (some (n.ping.getD 999)) "ping")
      (bump e (get_health_emoji e th
        (some (n.stats.memory.used / n.stats.memory.allocated * 100)) "ram")
        (bump e (get_health_emoji e th (some (n.stats.cpu * 100)) "cpu") acc)), ?_⟩
    simp only [nodeStep, ho, if_true]
    rw [if_neg (hne ho)]
  · exact ⟨acc, by simp [nodeStep, ho]⟩

lemma foldlM_nodeStep_ok (e : Emojis) (th : HealthThresholds) :
    ∀ (nodes : List Node) (acc : ℕ × ℕ × ℕ),
    (∀ n ∈ nodes, n.online = true → n.stats.memory.allocated ≠ 0) →
    ∃ acc', List.foldlM (nodeStep e th) acc nodes = .ok acc' := by
  intro nodes
  induction nodes with
  | nil => exact fun acc _ => ⟨acc, rfl⟩
  | cons n ns ih =>
    intro acc h
    obtain ⟨a1, ha1⟩ := nodeStep_ok e th acc n (h n (List.mem_cons_self n ns))
    obtain ⟨a2, ha2⟩ := ih a1 (fun n' hn' => h n' (List.mem_cons_of_mem n hn'))
    refine ⟨a2, ?_⟩
    rw [List.foldlM_cons, ha1]
    exact ha2

lemma dictGet_ne_zde (d : PyDict) (k : String) :
    dictGet d k ≠ .error .zeroDivisionErr := by
  unfold dictGet
  cases List.find? (fun p => p.1 == k) d <;> simp

lemma systemStep_ne_zde (e : Emojis) (th : HealthThresholds)
    (sys : Option PyDict) (acc : ℕ × ℕ × ℕ) :
    systemStep e th sys acc ≠ .error .zeroDivisionErr := by
  match sys with
  | none => simp [systemStep]
  | some d =>
    simp only [systemStep]
    by_cases hd : d = ([] : PyDict)
    · rw [if_pos hd]; simp
    · rw [if_neg hd]
      have herr : ∀ (err : PyErr) (f : ℚ → Except PyErr (ℕ × ℕ × ℕ)),
          (Except.error err : Except PyErr ℚ) >>= f = .error err := fun _ _ => rfl
      have hok : ∀ (x : ℚ) (f : ℚ → Except PyErr (ℕ × ℕ × ℕ)),
          (Except.ok x : Except PyErr ℚ) >>= f = f x := fun _ _ => rfl
      cases h1 : dictGet d "cpu_percent" with
      | error err =>
        have hne := dictGet_ne_zde d "cpu_percent"
        rw [h1] at hne
        rw [herr]
        simpa using hne
      | ok cp =>
        rw [hok]
        cases h2 : dictGet d "memory_percent" with
        | error err =>
          have hne := dictGet_ne_zde d "memory_percent"
          rw [h2] at hne
          rw [herr]
          simpa using hne
        | ok mp =>
          rw [hok]
          cases h3 : dictGet d "disk_percent" with
          | error err =>
            have hne := dictGet_ne_zde d "disk_percent"
            rw [h3] at hne
            rw [herr]
            simpa using hne
          | ok dp =>
            rw [hok]
            simp

/-- C4: the RAM-ratio computation in `get_overall_health` is unguarded:
on an input whose single online node reports `allocated = 0` the call
raises `ZeroDivisionError` instead of falling back; conversely, when
every online node has `allocated ≠ 0`, the division-error branch is
unreachable on any input. -/
theorem ram_division_unguarded (e : Emojis) (th : HealthThresholds)
    (nodes : List Node) (sys : Option PyDict)
    (halloc : ∀ n ∈ nodes, n.online = true → n.stats.memory.allocated ≠ 0) :
    get_overall_health eDemo thDemo [badNode] none = .error .zeroDivisionErr ∧
    get_overall_health e th nodes sys ≠ .error .zeroDivisionErr := by
  constructor
  · rfl
  · have hbind : ∀ (x : ℕ × ℕ × ℕ) (f : ℕ × ℕ × ℕ → Except PyErr (ℕ × ℕ × ℕ)),
        (Except.ok x : Except PyErr (ℕ × ℕ × ℕ)) >>= f = f x := fun _ _ => rfl
    obtain ⟨acc', hacc⟩ := foldlM_nodeStep_ok e th nodes (0, 0, 0) halloc
    unfold get_overall_health countsOf
    rw [hacc, hbind]
    cases hs : systemStep e th sys acc' with
    | ok r => simp [Except.map]
    | error err =>
      have hz := systemStep_ne_zde e th sys acc'
      rw [hs] at hz
      simp only [Except.map]
      intro heq
      injection heq with h
      exact hz (by rw [h])

/-- Witness for C4: the error branch fires on the bad node, and the empty
node list satisfies the precondition vacuously. -/
theorem ram_division_unguarded_witness :
    get_overall_health eDemo thDemo [badNode] none = .error .zeroDivisionErr :=
  (ram_division_unguarded eDemo thDemo [] none
    (fun n hn => absurd hn (List.not_mem_nil n))).1

/-- C9: a supplied-but-falsy system record behaves exactly like an absent
one: the system checks run only when `system_data` is truthy, so the
result always agrees with the `None` call; with an empty node list and an
empty system dict no key of the dict is read (no `KeyError` despite the
dict being empty), `total_metrics` stays `0`, and the result is
`critical`. -/
theorem system_falsy_like_none (e : Emojis) (th : HealthThresholds)
    (nodes : List Node) (sys : Option PyDict) :
    (sysTruthy sys = false →
      get_overall_health e th nodes sys = get_overall_health e th nodes none) ∧
    get_overall_health e th [] (some []) = .ok "critical" ∧
    (sysTruthy sys = false → get_overall_health e th [] sys = .ok "critical") := by
  have hstep : sysTruthy sys = false → ∀ acc, systemStep e th sys acc = .ok acc := by
    intro hf acc
    rcases sys with _ | d
    · rfl
    · rcases d with _ | ⟨p, l⟩
      · rfl
      · simp [sysTruthy] at hf
  refine ⟨?_, rfl, ?_⟩
  · intro hf
    unfold get_overall_health countsOf
    cases hacc : List.foldlM (nodeStep e th) (0, 0, 0) nodes with
    | error err => rfl
    | ok acc =>
      have hbind : ∀ (x : ℕ × ℕ × ℕ) (f : ℕ × ℕ × ℕ → Except PyErr (ℕ × ℕ × ℕ)),
          (Except.ok x : Except PyErr (ℕ × ℕ × ℕ)) >>= f = f x := fun _ _ => rfl
      rw [hbind, hbind, hstep hf acc]
      rfl
  · intro hf
    have h0 : get_overall_health e th [] sys =
        (systemStep e th sys (0, 0, 0)).map overallDecision := rfl
    rw [h0, hstep hf]
    rfl

/-- Witness for C9 at the empty system dict: falsy, so the result is
`critical` with no key read. -/
theorem system_falsy_like_none_witness :
    get_overall_health eDemo thDemo [] (some []) = .ok "critical" :=
  (system_falsy_like_none eDemo thDemo [] (some [])).2.2 rfl
